import Mathlib

/-!
Shallow embedding of the asynchronous image-work execution engine of
kube-fledged (pkg/images/image_manager.go): the dispatcher
(processNextWorkItem), the pod status observer (the informer update
handler together with handlePodStatusChange), and the deadline
reconciler (updatePendingImageWorkResults / updateImageCacheStatus).

Cluster interactions (pod lister, events listing, job creation and
deletion) are modelled as oracle functions supplied as parameters.
Lock usage and blocking operations are additionally recorded as an
event trace so that lock-scoping properties can be stated.
-/

/-- Status constant from image_manager.go: image pull/delete succeeded. -/
def ImageWorkResultStatusSucceeded : String := "succeeded"

/-- Status constant from image_manager.go: image pull/delete failed. -/
def ImageWorkResultStatusFailed : String := "failed"

/-- Status constant from image_manager.go: job for image pull/delete created. -/
def ImageWorkResultStatusJobCreated : String := "jobcreated"

/-- Status constant from image_manager.go: image already present in the node. -/
def ImageWorkResultStatusAlreadyPulled : String := "alreadypulled"

/-- The reserved literal prefixed to synthetic job identifiers (fakeJobPrefix in the source). -/
def fakeJobPfx : String := "fakejob-"

/-- WorkType enumeration from image_manager.go. -/
inductive WorkType
  | create
  | update
  | delete
  | statusUpdate
  | refresh
  | purge
  deriving DecidableEq

/-- A cluster node, reduced to the name used in the source (hostname label). -/
structure Node where
  name : String
  deriving DecidableEq

/-- An ImageCache custom resource, reduced to the metadata the engine reads. -/
structure ImageCache where
  name : String
  ns : String
  deriving DecidableEq

/-- A batch job, reduced to its name. -/
structure Job where
  name : String
  deriving DecidableEq

/-- ImageWorkRequest from image_manager.go: image name, node, runtime, work type and image cache. -/
structure ImageWorkRequest where
  Image : String
  Node : Option Node
  ContainerRuntimeVersion : String
  WorkType : WorkType
  Imagecache : ImageCache
  deriving DecidableEq

/-- ImageWorkResult from image_manager.go: the request plus status/reason/message. -/
structure ImageWorkResult where
  ImageWorkRequest : ImageWorkRequest
  Status : String
  Reason : String
  Message : String
  deriving DecidableEq

/-- Pod phase (corev1.PodPhase values used by the source). -/
inductive PodPhase
  | pending
  | running
  | succeeded
  | failed
  | unknown
  deriving DecidableEq

/-- Reason/message carried by a waiting or terminated container state. -/
structure ContainerStateDetail where
  reason : String
  message : String
  deriving DecidableEq

/-- Container state: optional waiting and terminated details. -/
structure ContainerState where
  waiting : Option ContainerStateDetail
  terminated : Option ContainerStateDetail
  deriving DecidableEq

/-- One entry of pod.Status.ContainerStatuses. -/
structure ContainerStatus where
  state : ContainerState
  deriving DecidableEq

/-- A pod, reduced to the fields the engine reads: name, resource version,
the job-name label, phase, and container statuses. -/
structure Pod where
  name : String
  resourceVersion : String
  jobName : String
  phase : PodPhase
  containerStatuses : List ContainerStatus
  deriving DecidableEq

/-- Lock and blocking events recorded while the engine runs. -/
inductive LockEvent
  | acquireW
  | releaseW
  | acquireR
  | releaseR
  | netCall
  | sleep
  deriving DecidableEq

/-- Scans a trace keeping the lock-hold depth; true iff a network call or a
sleep happens while at least one lock is held. -/
def blockedWhileLocked : Nat → List LockEvent → Bool
  | _, [] => false
  | d, LockEvent.acquireW :: rest => blockedWhileLocked (d + 1) rest
  | d, LockEvent.acquireR :: rest => blockedWhileLocked (d + 1) rest
  | d, LockEvent.releaseW :: rest => blockedWhileLocked (d - 1) rest
  | d, LockEvent.releaseR :: rest => blockedWhileLocked (d - 1) rest
  | d, LockEvent.netCall :: rest => decide (0 < d) || blockedWhileLocked d rest
  | d, LockEvent.sleep :: rest => decide (0 < d) || blockedWhileLocked d rest

/-- Association-list lookup: the Work Status Table map read m.imageworkstatus[k]. -/
def mapLookup {α : Type} : List (String × α) → String → Option α
  | [], _ => none
  | (k, v) :: rest, key => if k = key then some v else mapLookup rest key

/-- Association-list write: the Work Status Table map write m.imageworkstatus[k] = v. -/
def mapSet {α : Type} : List (String × α) → String → α → List (String × α)
  | [], key, v => [(key, v)]
  | (k, w) :: rest, key, v => if k = key then (key, v) :: rest else (k, w) :: mapSet rest key v

/-- Number of entries of an association list carrying a given key. -/
def countKey {α : Type} (l : List (String × α)) (k : String) : Nat :=
  (l.filter (fun p => decide (p.1 = k))).length

/-- Decidable equality for Except results, used to evaluate oracle
outcomes on concrete inputs. -/
def exceptDecEq {ε α : Type} [DecidableEq ε] [DecidableEq α] : DecidableEq (Except ε α)
  | Except.error a, Except.error b =>
    if h : a = b then Decidable.isTrue (h ▸ rfl)
    else Decidable.isFalse (fun hc => h (Except.error.inj hc))
  | Except.error _, Except.ok _ => Decidable.isFalse (fun hc => Except.noConfusion hc)
  | Except.ok _, Except.error _ => Decidable.isFalse (fun hc => Except.noConfusion hc)
  | Except.ok a, Except.ok b =>
    if h : a = b then Decidable.isTrue (h ▸ rfl)
    else Decidable.isFalse (fun hc => h (Except.ok.inj hc))

instance {ε α : Type} [DecidableEq ε] [DecidableEq α] : DecidableEq (Except ε α) :=
  exceptDecEq

/-- Oracle for the cluster interactions of the deadline reconciler:
the pod lister (by job-name label), the failure-events listing for a pod
name, and batch-job deletion. -/
structure ClusterOracle where
  listPods : String → Except String (List Pod)
  listFailureEvents : String → Except String (List String)
  deleteJob : String → Except String Unit

/-- Oracle for the dispatcher collaborators.  Modelled from the spec:
newImagePullJob, newImageDeleteJob and checkIfImageNeedsToBePulled live in
a repository file that is not under src (image helpers), and job creation
is a cluster API call; all are treated as opaque fallible collaborators,
and the random fake-job name suffix is supplied explicitly. -/
structure DispatchOracle where
  newImagePullJob : ImageWorkRequest → Except String Job
  newImageDeleteJob : ImageWorkRequest → Except String Job
  createJob : Job → Except String Job
  checkIfImageNeedsToBePulled : ImageWorkRequest → Except String Bool
  fakeNameSuffix : String

/-- WorkQueueKey from image_manager.go, as pushed onto the reconciliation
loop queue: the work type, the object key, and the status snapshot. -/
structure WorkQueueKey where
  workType : WorkType
  objKey : String
  Status : List (String × ImageWorkResult)
  deriving DecidableEq

/-- cache.MetaNamespaceKeyFunc for an ImageCache: namespace/name, or just
the name when the namespace is empty. -/
def metaNamespaceKeyFunc (c : ImageCache) : String :=
  if c.ns = "" then c.name else c.ns ++ "/" ++ c.name

/-- handlePodStatusChange from image_manager.go.  Returns the updated
Work Status Table (or an error modelling the runtime panic of the
unguarded ContainerStatuses[0] access) together with the lock trace.
A missing table entry for the job-name label is a silent no-op. -/
def handlePodStatusChange (pod : Pod) (tbl : List (String × ImageWorkResult)) :
    Except String (List (String × ImageWorkResult)) × List LockEvent :=
  match mapLookup tbl pod.jobName with
  | none => (Except.ok tbl, [LockEvent.acquireR, LockEvent.releaseR])
  | some iwres0 =>
    let iwres1 :=
      if pod.phase = PodPhase.succeeded then
        { iwres0 with Status := ImageWorkResultStatusSucceeded }
      else iwres0
    if pod.phase = PodPhase.failed then
      match pod.containerStatuses with
      | [] =>
        (Except.error "panic: runtime error: index out of range",
         [LockEvent.acquireR, LockEvent.releaseR])
      | cs :: _ =>
        let iwres2 := { iwres1 with Status := ImageWorkResultStatusFailed }
        let iwres3 :=
          match cs.state.terminated with
          | some t => { iwres2 with Reason := t.reason, Message := t.message }
          | none => iwres2
        (Except.ok (mapSet tbl pod.jobName iwres3),
         [LockEvent.acquireR, LockEvent.releaseR, LockEvent.acquireW, LockEvent.releaseW])
    else
      (Except.ok (mapSet tbl pod.jobName iwres1),
       [LockEvent.acquireR, LockEvent.releaseR, LockEvent.acquireW, LockEvent.releaseW])

/-- The pod informer UpdateFunc installed by NewImageManager: ignores
notifications with an unchanged resource version, then invokes the handler
exactly when the new phase is Succeeded or Failed while the old phase is
neither Succeeded nor Failed. -/
def podUpdateFires (oldPod newPod : Pod) : Bool :=
  if newPod.resourceVersion = oldPod.resourceVersion then false
  else
    decide ((newPod.phase = PodPhase.succeeded ∨ newPod.phase = PodPhase.failed) ∧
      (oldPod.phase ≠ PodPhase.succeeded ∧ oldPod.phase ≠ PodPhase.failed))

/-- Claim-side firing predicate, following the words of claim C8: the
handler fires iff the resource version changed, the new phase is Succeeded
or Failed, and the prior phase was a different phase.  Declared only to be
compared against podUpdateFires. -/
def claimPodObserverFires (oldPod newPod : Pod) : Bool :=
  decide (¬ newPod.resourceVersion = oldPod.resourceVersion) &&
    decide ((newPod.phase = PodPhase.succeeded ∨ newPod.phase = PodPhase.failed) ∧
      oldPod.phase ≠ newPod.phase)

/-- The body copying a Pending pod state into the work result, from
updatePendingImageWorkResults: with exactly one container status, copy a
waiting or terminated reason/message (terminated read second, so it wins
when both are present); otherwise the generic Pending reason. -/
def resolvePending (pod : Pod) (iwres : ImageWorkResult) : ImageWorkResult :=
  match pod.containerStatuses with
  | [cs] =>
    let i1 :=
      match cs.state.waiting with
      | some w => { iwres with Reason := w.reason, Message := w.message }
      | none => iwres
    (match cs.state.terminated with
     | some t => { i1 with Reason := t.reason, Message := t.message }
     | none => i1)
  | _ => { iwres with Reason := "Pending", Message := "Check if node is ready" }

/-- Forced resolution of one jobcreated entry, from the loop body of
updatePendingImageWorkResults: list the pods of the job (zero or more than
one is a hard error), mark failed, copy Pending details, and for non-purge
work append the failure-event messages (a network call, recorded in the
trace) to the message. -/
def resolveEntry (o : ClusterOracle) (job : String) (iwres : ImageWorkResult) :
    Except String ImageWorkResult × List LockEvent :=
  match o.listPods job with
  | Except.error e => (Except.error e, [])
  | Except.ok [] => (Except.error ("no pods matched job " ++ job), [])
  | Except.ok (_ :: _ :: _) => (Except.error ("more than one pod matched job " ++ job), [])
  | Except.ok [pod] =>
    let iwres1 := { iwres with Status := ImageWorkResultStatusFailed }
    let iwres2 := if pod.phase = PodPhase.pending then resolvePending pod iwres1 else iwres1
    if iwres.ImageWorkRequest.WorkType ≠ WorkType.purge then
      match o.listFailureEvents pod.name with
      | Except.error e => (Except.error e, [LockEvent.netCall])
      | Except.ok msgs =>
        (Except.ok { iwres2 with
          Message := msgs.foldl (fun acc v => acc ++ ":" ++ v) iwres2.Message },
         [LockEvent.netCall])
    else
      (Except.ok iwres2, [])

/-- Result of the forced-resolution loop: the table after the run, the
first error if any, and the trace of blocking operations performed. -/
structure PendingResult where
  table : List (String × ImageWorkResult)
  err : Option String
  trace : List LockEvent

/-- The range loop of updatePendingImageWorkResults over the Work Status
Table: every jobcreated entry of the given cache is force-resolved in
place; the first error aborts, leaving the current and later entries as
they were (earlier writes are retained). -/
def updatePendingLoop (o : ClusterOracle) (cn : String) :
    List (String × ImageWorkResult) → PendingResult
  | [] => { table := [], err := none, trace := [] }
  | (job, iwres) :: rest =>
    if iwres.ImageWorkRequest.Imagecache.name = cn ∧
        iwres.Status = ImageWorkResultStatusJobCreated then
      match resolveEntry o job iwres with
      | (Except.error e, tr) => { table := (job, iwres) :: rest, err := some e, trace := tr }
      | (Except.ok iwres1, tr) =>
        let r := updatePendingLoop o cn rest
        { table := (job, iwres1) :: r.table, err := r.err, trace := tr ++ r.trace }
    else
      let r := updatePendingLoop o cn rest
      { table := (job, iwres) :: r.table, err := r.err, trace := r.trace }

/-- updatePendingImageWorkResults from image_manager.go: the forced
resolution pass, run entirely under the exclusive lock (taken at entry and
released by defer also on the error paths). -/
def updatePendingImageWorkResults (o : ClusterOracle) (cn : String)
    (tbl : List (String × ImageWorkResult)) : PendingResult :=
  let r := updatePendingLoop o cn tbl
  { r with trace := [LockEvent.acquireW] ++ r.trace ++ [LockEvent.releaseW] }

/-- Result of the snapshot-and-clear loop of updateImageCacheStatus. -/
structure ClearResult where
  table : List (String × ImageWorkResult)
  iwstatus : List (String × ImageWorkResult)
  imageCache : Option ImageCache
  err : Option String
  trace : List LockEvent

/-- The snapshot-and-clear range loop of updateImageCacheStatus: every
entry of the cache is copied into the snapshot and removed from the table;
a real (non-synthetic) job is additionally deleted through the cluster API
(a network call, performed inside the locked region), and a deletion
failure aborts on the spot, after the current entry was already removed. -/
def clearLoop (o : ClusterOracle) (cn : String) :
    List (String × ImageWorkResult) → Option ImageCache → ClearResult
  | [], ic => { table := [], iwstatus := [], imageCache := ic, err := none, trace := [] }
  | (job, iwres) :: rest, ic =>
    if iwres.ImageWorkRequest.Imagecache.name = cn then
      let ic1 := some iwres.ImageWorkRequest.Imagecache
      if ¬ fakeJobPfx.isPrefixOf job then
        match o.deleteJob job with
        | Except.error e =>
          { table := rest, iwstatus := [(job, iwres)], imageCache := ic1,
            err := some e, trace := [LockEvent.netCall] }
        | Except.ok _ =>
          let r := clearLoop o cn rest ic1
          { table := r.table, iwstatus := (job, iwres) :: r.iwstatus,
            imageCache := r.imageCache, err := r.err, trace := LockEvent.netCall :: r.trace }
      else
        let r := clearLoop o cn rest ic1
        { table := r.table, iwstatus := (job, iwres) :: r.iwstatus,
          imageCache := r.imageCache, err := r.err, trace := r.trace }
    else
      let r := clearLoop o cn rest ic
      { table := (job, iwres) :: r.table, iwstatus := r.iwstatus,
        imageCache := r.imageCache, err := r.err, trace := r.trace }

/-- Outcome of one deadline-reconciler run: the table left behind, the
items pushed onto the reconciliation-loop workqueue, the messages sent on
the per-run completion channel (none models a nil error), and the trace. -/
structure RunOutcome where
  table : List (String × ImageWorkResult)
  emitted : List WorkQueueKey
  errCh : List (Option String)
  trace : List LockEvent

/-- Trace of the wait.Poll phase of updateImageCacheStatus for a given
number of iterations: each cycle sleeps for the interval, then evaluates
the condition under the shared-read lock. -/
def pollTrace : Nat → List LockEvent
  | 0 => []
  | n + 1 => [LockEvent.sleep, LockEvent.acquireR, LockEvent.releaseR] ++ pollTrace n

/-- updateImageCacheStatus from image_manager.go: poll until no entry of
the cache is jobcreated or the deadline elapses, force-resolve the
leftovers, then under the exclusive lock snapshot-and-clear the cache
entries (deleting real jobs), and finally either emit exactly one
status-update item carrying the snapshot and send nil on the completion
channel, or send the first error encountered. -/
def updateImageCacheStatus (o : ClusterOracle) (cn : String)
    (tbl : List (String × ImageWorkResult)) (pollIters : Nat) : RunOutcome :=
  match (updatePendingImageWorkResults o cn tbl).err with
  | some e =>
    { table := (updatePendingImageWorkResults o cn tbl).table, emitted := [],
      errCh := [some e],
      trace := pollTrace pollIters ++ (updatePendingImageWorkResults o cn tbl).trace }
  | none =>
    match (clearLoop o cn (updatePendingImageWorkResults o cn tbl).table none).err with
    | some e =>
      { table := (clearLoop o cn (updatePendingImageWorkResults o cn tbl).table none).table,
        emitted := [], errCh := [some e],
        trace := pollTrace pollIters ++ (updatePendingImageWorkResults o cn tbl).trace ++
          [LockEvent.acquireW] ++
          (clearLoop o cn (updatePendingImageWorkResults o cn tbl).table none).trace ++
          [LockEvent.releaseW] }
    | none =>
      match (clearLoop o cn (updatePendingImageWorkResults o cn tbl).table none).imageCache with
      | none =>
        { table := (clearLoop o cn (updatePendingImageWorkResults o cn tbl).table none).table,
          emitted := [], errCh := [some "unable to obtain reference to image cache"],
          trace := pollTrace pollIters ++ (updatePendingImageWorkResults o cn tbl).trace ++
            [LockEvent.acquireW] ++
            (clearLoop o cn (updatePendingImageWorkResults o cn tbl).table none).trace ++
            [LockEvent.releaseW] }
      | some ic =>
        { table := (clearLoop o cn (updatePendingImageWorkResults o cn tbl).table none).table,
          emitted := [{ workType := WorkType.statusUpdate,
                        objKey := metaNamespaceKeyFunc ic,
                        Status := (clearLoop o cn
                          (updatePendingImageWorkResults o cn tbl).table none).iwstatus }],
          errCh := [none],
          trace := pollTrace pollIters ++ (updatePendingImageWorkResults o cn tbl).trace ++
            [LockEvent.acquireW] ++
            (clearLoop o cn (updatePendingImageWorkResults o cn tbl).table none).trace ++
            [LockEvent.releaseW] }

/-- The snapshot carried by the run outcome when exactly one status-update
item was emitted, and the empty list otherwise. -/
def snapshotOf (out : RunOutcome) : List (String × ImageWorkResult) :=
  match out.emitted with
  | [k] => k.Status
  | _ => []

/-- Effects of one dispatcher iteration on the image work queue. -/
inductive QueueOp
  | done
  | forget
  | addRateLimited
  deriving DecidableEq

/-- Outcome of processing one work item: the table after the call, the
queue operations performed in order, the cache name for which a deadline
reconciler run was spawned (for a flush item), and the error handed to
runtime.HandleError, if any. -/
structure DispatchOutcome where
  table : List (String × ImageWorkResult)
  queueOps : List QueueOp
  spawned : Option String
  handledError : Option String
  deriving DecidableEq

/-- pullImage from image_manager.go: construct the pull-job manifest and
create the job through the cluster API. -/
def pullImage (o : DispatchOracle) (iwr : ImageWorkRequest) : Except String Job :=
  match o.newImagePullJob iwr with
  | Except.error e => Except.error e
  | Except.ok newjob =>
    match o.createJob newjob with
    | Except.error e => Except.error e
    | Except.ok job => Except.ok job

/-- deleteImage from image_manager.go: construct the delete-job manifest
and create the job through the cluster API. -/
def deleteImage (o : DispatchOracle) (iwr : ImageWorkRequest) : Except String Job :=
  match o.newImageDeleteJob iwr with
  | Except.error e => Except.error e
  | Except.ok newjob =>
    match o.createJob newjob with
    | Except.error e => Except.error e
    | Except.ok job => Except.ok job

/-- The body of processNextWorkItem from image_manager.go for one
well-typed work item.  A flush item (empty image and node) forgets the
item and spawns a reconciler run without touching the table.  For a purge
item a delete job is launched; otherwise the pull-necessity check decides
between launching a pull job and recording a synthetic already-pulled
entry.  Any collaborator error is returned from the inner function, so it
is only handed to runtime.HandleError after the deferred Done: the item is
neither forgotten nor re-added, and the table is untouched. -/
def processWorkItem (o : DispatchOracle) (iwr : ImageWorkRequest)
    (tbl : List (String × ImageWorkResult)) : DispatchOutcome :=
  if iwr.Image = "" ∧ iwr.Node = none then
    { table := tbl, queueOps := [QueueOp.forget, QueueOp.done],
      spawned := some iwr.Imagecache.name, handledError := none }
  else
    if iwr.WorkType = WorkType.purge then
      match deleteImage o iwr with
      | Except.error e =>
        { table := tbl, queueOps := [QueueOp.done], spawned := none,
          handledError := some ("error deleting image " ++ iwr.Image ++ ": " ++ e) }
      | Except.ok job =>
        { table := mapSet tbl job.name
            { ImageWorkRequest := iwr, Status := ImageWorkResultStatusJobCreated,
              Reason := "", Message := "" },
          queueOps := [QueueOp.forget, QueueOp.done], spawned := none, handledError := none }
    else
      match o.checkIfImageNeedsToBePulled iwr with
      | Except.error e =>
        { table := tbl, queueOps := [QueueOp.done], spawned := none,
          handledError := some ("error from checkIfImageNeedsToBePulled: " ++ e) }
      | Except.ok pull =>
        if pull then
          match pullImage o iwr with
          | Except.error e =>
            { table := tbl, queueOps := [QueueOp.done], spawned := none,
              handledError := some ("error pulling image " ++ iwr.Image ++ ": " ++ e) }
          | Except.ok job =>
            { table := mapSet tbl job.name
                { ImageWorkRequest := iwr, Status := ImageWorkResultStatusJobCreated,
                  Reason := "", Message := "" },
              queueOps := [QueueOp.forget, QueueOp.done], spawned := none, handledError := none }
        else
          { table := mapSet tbl (fakeJobPfx ++ o.fakeNameSuffix)
              { ImageWorkRequest := iwr, Status := ImageWorkResultStatusAlreadyPulled,
                Reason := "", Message := "" },
            queueOps := [QueueOp.forget, QueueOp.done], spawned := none, handledError := none }

/-- Sample image cache used by the concrete scenarios. -/
def cacheC : ImageCache := { name := "c", ns := "kube-fledged" }

/-- Sample node. -/
def nodeA : Node := { name := "node-a" }

/-- Sample concrete pull request for cacheC. -/
def reqC : ImageWorkRequest :=
  { Image := "nginx:1.25", Node := some nodeA, ContainerRuntimeVersion := "containerd",
    WorkType := WorkType.create, Imagecache := cacheC }

/-- Sample purge request for cacheC. -/
def reqPurgeC : ImageWorkRequest := { reqC with WorkType := WorkType.purge }

/-- Sample flush (sentinel) item for cacheC: empty image and node. -/
def flushC : ImageWorkRequest :=
  { Image := "", Node := none, ContainerRuntimeVersion := "",
    WorkType := WorkType.create, Imagecache := cacheC }

/-- A work result already resolved to succeeded by the observer. -/
def iwrSucceeded : ImageWorkResult :=
  { ImageWorkRequest := reqC, Status := ImageWorkResultStatusSucceeded, Reason := "", Message := "" }

/-- A work result still in jobcreated state. -/
def iwrJobCreated : ImageWorkResult :=
  { ImageWorkRequest := reqC, Status := ImageWorkResultStatusJobCreated, Reason := "", Message := "" }

/-- A running pod belonging to job j1. -/
def podRunningJ1 : Pod :=
  { name := "pod-1", resourceVersion := "rv1", jobName := "j1",
    phase := PodPhase.running, containerStatuses := [] }

/-- A failed pod for job j1 reporting zero container statuses. -/
def podFailedNoCS : Pod :=
  { name := "pod-x", resourceVersion := "5", jobName := "j1",
    phase := PodPhase.failed, containerStatuses := [] }

/-- A pending pod for job j1 reporting zero container statuses. -/
def podPendingNoCS : Pod :=
  { name := "pod-p", resourceVersion := "3", jobName := "j1",
    phase := PodPhase.pending, containerStatuses := [] }

/-- A pod observed in phase Succeeded (older notification). -/
def podOldSucceeded : Pod :=
  { name := "p", resourceVersion := "1", jobName := "j1",
    phase := PodPhase.succeeded, containerStatuses := [] }

/-- The same pod observed later in phase Failed with a changed resource version. -/
def podNewFailed : Pod :=
  { name := "p", resourceVersion := "2", jobName := "j1",
    phase := PodPhase.failed, containerStatuses := [] }

/-- Table with two observer-resolved entries for cacheC. -/
def tblSucc2 : List (String × ImageWorkResult) := [("j1", iwrSucceeded), ("j2", iwrSucceeded)]

/-- Table with one jobcreated entry for cacheC. -/
def tblJC1 : List (String × ImageWorkResult) := [("j1", iwrJobCreated)]

/-- Table with two jobcreated entries for cacheC. -/
def tblJC2 : List (String × ImageWorkResult) := [("j1", iwrJobCreated), ("j2", iwrJobCreated)]

/-- Cluster oracle where every call succeeds and lists are empty. -/
def oracle0 : ClusterOracle :=
  { listPods := fun _ => Except.ok [], listFailureEvents := fun _ => Except.ok [],
    deleteJob := fun _ => Except.ok () }

/-- Cluster oracle where every job has exactly one running pod. -/
def oRun : ClusterOracle :=
  { listPods := fun _ => Except.ok [podRunningJ1], listFailureEvents := fun _ => Except.ok [],
    deleteJob := fun _ => Except.ok () }

/-- Cluster oracle where deleting job j1 succeeds and every other deletion fails. -/
def oC1 : ClusterOracle :=
  { listPods := fun _ => Except.ok [], listFailureEvents := fun _ => Except.ok [],
    deleteJob := fun j => if j = "j1" then Except.ok () else Except.error "connection refused" }

/-- Cluster oracle where job j1 has one pod and every other job has none. -/
def oC6 : ClusterOracle :=
  { listPods := fun j => if j = "j1" then Except.ok [podRunningJ1] else Except.ok [],
    listFailureEvents := fun _ => Except.ok [], deleteJob := fun _ => Except.ok () }

/-- Dispatch oracle where every collaborator succeeds. -/
def dOracle0 : DispatchOracle :=
  { newImagePullJob := fun _ => Except.ok { name := "j1" },
    newImageDeleteJob := fun _ => Except.ok { name := "j1" },
    createJob := fun j => Except.ok j,
    checkIfImageNeedsToBePulled := fun _ => Except.ok true, fakeNameSuffix := "abc12" }

/-- Dispatch oracle where the job-creation API call fails. -/
def dOracleFail : DispatchOracle :=
  { newImagePullJob := fun _ => Except.ok { name := "j1" },
    newImageDeleteJob := fun _ => Except.ok { name := "j1" },
    createJob := fun _ => Except.error "server unavailable",
    checkIfImageNeedsToBePulled := fun _ => Except.ok true, fakeNameSuffix := "abc12" }


theorem resolvePending_request (pod : Pod) (iwres : ImageWorkResult) :
    (resolvePending pod iwres).ImageWorkRequest = iwres.ImageWorkRequest := by
  unfold resolvePending
  split
  · split
    · split <;> rfl
    · split <;> rfl
  · rfl

/-- The work result after the mark-failed and Pending-copy steps of the
forced resolution of one entry (the value of the mutated loop variable
right before the failure-events query). -/
def resolvedBase (pod : Pod) (iwres : ImageWorkResult) : ImageWorkResult :=
  if pod.phase = PodPhase.pending then
    resolvePending pod { iwres with Status := ImageWorkResultStatusFailed }
  else
    { iwres with Status := ImageWorkResultStatusFailed }

theorem resolvedBase_request (pod : Pod) (iwres : ImageWorkResult) :
    (resolvedBase pod iwres).ImageWorkRequest = iwres.ImageWorkRequest := by
  unfold resolvedBase
  split
  · exact resolvePending_request _ _
  · rfl

theorem resolvePending_status (pod : Pod) (iwres : ImageWorkResult) :
    (resolvePending pod iwres).Status = iwres.Status := by
  unfold resolvePending
  split
  · split
    · split <;> rfl
    · split <;> rfl
  · rfl

theorem resolvedBase_status (pod : Pod) (iwres : ImageWorkResult) :
    (resolvedBase pod iwres).Status = ImageWorkResultStatusFailed := by
  unfold resolvedBase
  split
  · rw [resolvePending_status]
  · rfl

theorem resolveEntry_eq_single (o : ClusterOracle) (job : String) (iwres : ImageWorkResult)
    (pod : Pod) (hp : o.listPods job = Except.ok [pod]) :
    resolveEntry o job iwres =
      (if iwres.ImageWorkRequest.WorkType ≠ WorkType.purge then
        match o.listFailureEvents pod.name with
        | Except.error e => (Except.error e, [LockEvent.netCall])
        | Except.ok msgs =>
          (Except.ok { resolvedBase pod iwres with
            Message := msgs.foldl (fun acc v => acc ++ ":" ++ v) (resolvedBase pod iwres).Message },
           [LockEvent.netCall])
      else (Except.ok (resolvedBase pod iwres), [])) := by
  unfold resolveEntry
  rw [hp]
  rfl

theorem resolveEntry_ok_request (o : ClusterOracle) (job : String) (iwres r : ImageWorkResult)
    (h : (resolveEntry o job iwres).1 = Except.ok r) :
    r.ImageWorkRequest = iwres.ImageWorkRequest := by
  rcases hp : o.listPods job with e | pods
  · unfold resolveEntry at h
    rw [hp] at h
    simp at h
  · rcases pods with _ | ⟨pod, _ | ⟨q, ps⟩⟩
    · unfold resolveEntry at h
      rw [hp] at h
      simp at h
    · rw [resolveEntry_eq_single o job iwres pod hp] at h
      by_cases hw : iwres.ImageWorkRequest.WorkType ≠ WorkType.purge
      · rw [if_pos hw] at h
        rcases he : o.listFailureEvents pod.name with e2 | msgs <;> rw [he] at h
        · simp at h
        · injection h with h
          subst h
          exact resolvedBase_request pod iwres
      · rw [if_neg hw] at h
        injection h with h
        subst h
        exact resolvedBase_request pod iwres
    · unfold resolveEntry at h
      rw [hp] at h
      simp at h

theorem pending_loop_keys (o : ClusterOracle) (cn : String) :
    ∀ l : List (String × ImageWorkResult),
      ((updatePendingLoop o cn l).table).map Prod.fst = l.map Prod.fst := by
  intro l
  induction l with
  | nil => rfl
  | cons hd rest ih =>
    obtain ⟨job, iwres⟩ := hd
    simp only [updatePendingLoop]
    split
    · split
      · simp
      · simp [ih]
    · simp [ih]

theorem pending_loop_get (o : ClusterOracle) (cn : String) :
    ∀ (l : List (String × ImageWorkResult)) (i : Nat) (e : String × ImageWorkResult),
      l.get? i = some e →
      ¬ (e.2.ImageWorkRequest.Imagecache.name = cn ∧
          e.2.Status = ImageWorkResultStatusJobCreated) →
      ((updatePendingLoop o cn l).table).get? i = some e := by
  intro l
  induction l with
  | nil => intro i e h _; simp at h
  | cons hd rest ih =>
    intro i e hget hne
    obtain ⟨job, iwres⟩ := hd
    simp only [updatePendingLoop]
    split
    next hcond =>
      split
      next er tr heq => exact hget
      next iwres1 tr heq =>
        cases i with
        | zero =>
          simp only [List.get?] at hget
          injection hget with hget
          subst hget
          exact absurd hcond hne
        | succ n =>
          simp only [List.get?] at hget ⊢
          exact ih n e hget hne
    next hcond =>
      cases i with
      | zero => simpa using hget
      | succ n =>
        simp only [List.get?] at hget ⊢
        exact ih n e hget hne

theorem pending_nomatch (o : ClusterOracle) (cn : String) :
    ∀ l : List (String × ImageWorkResult),
      (∀ p ∈ l, ¬ p.2.ImageWorkRequest.Imagecache.name = cn) →
      updatePendingLoop o cn l = { table := l, err := none, trace := [] } := by
  intro l
  induction l with
  | nil => intro _; rfl
  | cons hd rest ih =>
    intro h
    obtain ⟨job, iwres⟩ := hd
    have hhd : ¬ iwres.ImageWorkRequest.Imagecache.name = cn := h (job, iwres) (by simp)
    have hrest := ih (fun p hp => h p (by simp [hp]))
    simp only [updatePendingLoop]
    rw [if_neg (fun hand => hhd hand.1)]
    simp [hrest]

theorem resolveEntry_bad (o : ClusterOracle) (job : String) (iwres : ImageWorkResult)
    (pods : List Pod) (hp : o.listPods job = Except.ok pods) (hlen : pods.length ≠ 1) :
    ∃ msg tr, resolveEntry o job iwres = (Except.error msg, tr) := by
  unfold resolveEntry
  rw [hp]
  cases pods with
  | nil => exact ⟨_, _, rfl⟩
  | cons p ps =>
    cases ps with
    | nil => simp at hlen
    | cons q qs => exact ⟨_, _, rfl⟩

theorem pending_err_of_bad (o : ClusterOracle) (cn : String) (job : String)
    (iwres : ImageWorkResult) (pods : List Pod)
    (hp : o.listPods job = Except.ok pods) (hlen : pods.length ≠ 1)
    (hc : iwres.ImageWorkRequest.Imagecache.name = cn)
    (hs : iwres.Status = ImageWorkResultStatusJobCreated) :
    ∀ l : List (String × ImageWorkResult), (job, iwres) ∈ l →
      ((updatePendingLoop o cn l).err).isSome = true := by
  intro l
  induction l with
  | nil => intro h; cases h
  | cons hd rest ih =>
    intro hmem
    obtain ⟨k, v⟩ := hd
    rcases List.mem_cons.mp hmem with heq | hmem'
    · injection heq with hk hv
      subst hk
      subst hv
      simp only [updatePendingLoop]
      rw [if_pos ⟨hc, hs⟩]
      obtain ⟨msg, tr, hre⟩ := resolveEntry_bad o job iwres pods hp hlen
      rw [hre]
      rfl
    · simp only [updatePendingLoop]
      split
      · split
        · rfl
        · simpa using ih hmem'
      · simpa using ih hmem'

theorem clearLoop_success (o : ClusterOracle) (cn : String) :
    ∀ (l : List (String × ImageWorkResult)) (ic : Option ImageCache),
      (clearLoop o cn l ic).err = none →
      (clearLoop o cn l ic).table =
        l.filter (fun p => ! decide (p.2.ImageWorkRequest.Imagecache.name = cn)) ∧
      (clearLoop o cn l ic).iwstatus =
        l.filter (fun p => decide (p.2.ImageWorkRequest.Imagecache.name = cn)) := by
  intro l
  induction l with
  | nil => intro ic _; exact ⟨rfl, rfl⟩
  | cons hd rest ih =>
    intro ic h
    obtain ⟨job, iwres⟩ := hd
    revert h
    simp only [clearLoop]
    split
    next hmatch =>
      split
      next hreal =>
        split
        next e heq => intro h; simp at h
        next u heq =>
          intro h
          obtain ⟨h1, h2⟩ := ih (some iwres.ImageWorkRequest.Imagecache) (by simpa using h)
          constructor
          · simpa [List.filter_cons, hmatch] using h1
          · simpa [List.filter_cons, hmatch] using h2
      next hfake =>
        intro h
        obtain ⟨h1, h2⟩ := ih (some iwres.ImageWorkRequest.Imagecache) (by simpa using h)
        constructor
        · simpa [List.filter_cons, hmatch] using h1
        · simpa [List.filter_cons, hmatch] using h2
    next hmatch =>
      intro h
      obtain ⟨h1, h2⟩ := ih ic (by simpa using h)
      constructor
      · simpa [List.filter_cons, hmatch] using h1
      · simpa [List.filter_cons, hmatch] using h2

theorem clearLoop_nomatch (o : ClusterOracle) (cn : String) :
    ∀ (l : List (String × ImageWorkResult)) (ic : Option ImageCache),
      (∀ p ∈ l, ¬ p.2.ImageWorkRequest.Imagecache.name = cn) →
      clearLoop o cn l ic =
        { table := l, iwstatus := [], imageCache := ic, err := none, trace := [] } := by
  intro l
  induction l with
  | nil => intro ic _; rfl
  | cons hd rest ih =>
    intro ic h
    obtain ⟨job, iwres⟩ := hd
    have hhd : ¬ iwres.ImageWorkRequest.Imagecache.name = cn := h (job, iwres) (by simp)
    have hrest := ih ic (fun p hp => h p (by simp [hp]))
    simp only [clearLoop]
    rw [if_neg hhd]
    simp [hrest]

theorem countKey_zero_of_not_mem {α : Type} (l : List (String × α)) (k : String)
    (h : k ∉ l.map Prod.fst) : countKey l k = 0 := by
  simp only [countKey, List.length_eq_zero, List.filter_eq_nil_iff]
  intro p hp hq
  have hp1 : p.1 = k := by simpa using hq
  exact h (hp1 ▸ List.mem_map.mpr ⟨p, hp, rfl⟩)

theorem not_mem_keys_filter {α : Type} (q : String × α → Bool) (l : List (String × α))
    (k : String) (h : k ∉ l.map Prod.fst) : k ∉ (l.filter q).map Prod.fst := by
  intro hmem
  apply h
  obtain ⟨p, hp, hpk⟩ := List.mem_map.mp hmem
  exact List.mem_map.mpr ⟨p, List.mem_of_mem_filter hp, hpk⟩

theorem countKey_filter_pos {α : Type} :
    ∀ (l : List (String × α)) (k : String) (v : α) (q : String × α → Bool),
      (l.map Prod.fst).Nodup → mapLookup l k = some v → q (k, v) = true →
      countKey (l.filter q) k = 1 := by
  intro l
  induction l with
  | nil => intro k v q _ hl _; simp [mapLookup] at hl
  | cons hd rest ih =>
    intro k v q hnd hl hq
    obtain ⟨k1, v1⟩ := hd
    simp only [List.map_cons, List.nodup_cons] at hnd
    by_cases hk : k1 = k
    · subst hk
      rw [mapLookup, if_pos rfl] at hl
      injection hl with hl
      subst hl
      have h0 : countKey (rest.filter q) k1 = 0 :=
        countKey_zero_of_not_mem _ _ (not_mem_keys_filter q rest k1 hnd.1)
      rw [List.filter_cons, if_pos hq]
      simp only [countKey] at h0 ⊢
      rw [List.filter_cons, if_pos (by simp), List.length_cons, h0]
    · rw [mapLookup, if_neg hk] at hl
      have hrec := ih k v q hnd.2 hl hq
      rw [List.filter_cons]
      cases hq1 : q (k1, v1) with
      | false =>
        rw [if_neg (by simp)]
        exact hrec
      | true =>
        rw [if_pos rfl]
        simp only [countKey] at hrec ⊢
        rw [List.filter_cons, if_neg (by simp [hk])]
        exact hrec

theorem countKey_filter_neg {α : Type} :
    ∀ (l : List (String × α)) (k : String) (v : α) (q : String × α → Bool),
      (l.map Prod.fst).Nodup → mapLookup l k = some v → q (k, v) = false →
      countKey (l.filter q) k = 0 := by
  intro l
  induction l with
  | nil => intro k v q _ hl _; simp [mapLookup] at hl
  | cons hd rest ih =>
    intro k v q hnd hl hq
    obtain ⟨k1, v1⟩ := hd
    simp only [List.map_cons, List.nodup_cons] at hnd
    by_cases hk : k1 = k
    · subst hk
      rw [mapLookup, if_pos rfl] at hl
      injection hl with hl
      subst hl
      rw [List.filter_cons, if_neg (by simp [hq])]
      exact countKey_zero_of_not_mem _ _ (not_mem_keys_filter q rest k1 hnd.1)
    · rw [mapLookup, if_neg hk] at hl
      have hrec := ih k v q hnd.2 hl hq
      rw [List.filter_cons]
      cases hq1 : q (k1, v1) with
      | false =>
        rw [if_neg (by simp)]
        exact hrec
      | true =>
        rw [if_pos rfl]
        simp only [countKey] at hrec ⊢
        rw [List.filter_cons, if_neg (by simp [hk])]
        exact hrec

theorem mapLookup_none_of_countKey_zero {α : Type} :
    ∀ (l : List (String × α)) (k : String), countKey l k = 0 → mapLookup l k = none := by
  intro l
  induction l with
  | nil => intro k _; rfl
  | cons hd rest ih =>
    intro k h
    obtain ⟨k1, v1⟩ := hd
    by_cases hk : k1 = k
    · subst hk
      simp [countKey, List.filter_cons] at h
    · rw [mapLookup, if_neg hk]
      apply ih
      simpa [countKey, List.filter_cons, hk] using h

theorem pending_lookup (o : ClusterOracle) (cn : String) :
    ∀ (l : List (String × ImageWorkResult)) (job : String) (iwres : ImageWorkResult),
      mapLookup l job = some iwres →
      ∃ r, mapLookup (updatePendingLoop o cn l).table job = some r ∧
        r.ImageWorkRequest = iwres.ImageWorkRequest := by
  intro l
  induction l with
  | nil => intro job iwres h; simp [mapLookup] at h
  | cons hd rest ih =>
    intro job iwres h
    obtain ⟨k, v⟩ := hd
    simp only [updatePendingLoop]
    split
    next hcond =>
      split
      next er tr heq => exact ⟨iwres, h, rfl⟩
      next iwres1 tr heq =>
        by_cases hk : k = job
        · subst hk
          rw [mapLookup, if_pos rfl] at h
          injection h with h
          subst h
          refine ⟨iwres1, ?_, ?_⟩
          · simp [mapLookup]
          · exact resolveEntry_ok_request o k v iwres1 (by rw [heq])
        · rw [mapLookup, if_neg hk] at h
          obtain ⟨r, hr1, hr2⟩ := ih job iwres h
          refine ⟨r, ?_, hr2⟩
          simpa [mapLookup, hk] using hr1
    next hcond =>
      by_cases hk : k = job
      · subst hk
        rw [mapLookup, if_pos rfl] at h
        injection h with h
        subst h
        exact ⟨v, by simp [mapLookup], rfl⟩
      · rw [mapLookup, if_neg hk] at h
        obtain ⟨r, hr1, hr2⟩ := ih job iwres h
        refine ⟨r, ?_, hr2⟩
        simpa [mapLookup, hk] using hr1

theorem run_shape (o : ClusterOracle) (cn : String) (tbl : List (String × ImageWorkResult))
    (n : Nat) :
    ((updateImageCacheStatus o cn tbl n).errCh.length = 1) ∧
    ((updateImageCacheStatus o cn tbl n).errCh = [none] ↔
      (updateImageCacheStatus o cn tbl n).emitted.length = 1) := by
  unfold updateImageCacheStatus
  split
  · simp
  · split
    · simp
    · split
      · simp
      · simp

theorem run_success (o : ClusterOracle) (cn : String) (tbl : List (String × ImageWorkResult))
    (n : Nat) (job : String) (iwres : ImageWorkResult)
    (hnd : (tbl.map Prod.fst).Nodup)
    (hl : mapLookup tbl job = some iwres)
    (hc : iwres.ImageWorkRequest.Imagecache.name = cn)
    (hs : (updateImageCacheStatus o cn tbl n).errCh = [none]) :
    mapLookup (updateImageCacheStatus o cn tbl n).table job = none ∧
    (updateImageCacheStatus o cn tbl n).emitted.length = 1 ∧
    countKey (snapshotOf (updateImageCacheStatus o cn tbl n)) job = 1 := by
  obtain ⟨r1, hr1, hreq⟩ := pending_lookup o cn tbl job iwres hl
  have hc1 : r1.ImageWorkRequest.Imagecache.name = cn := by rw [hreq]; exact hc
  have hnd1 : (((updatePendingLoop o cn tbl).table).map Prod.fst).Nodup := by
    rw [pending_loop_keys o cn tbl]; exact hnd
  revert hs
  unfold updateImageCacheStatus
  split
  · intro hs; simp at hs
  · split
    next heq2 =>
      intro hs; simp at hs
    next heq2 =>
      split
      · intro hs; simp at hs
      next ic heq3 =>
        intro _
        obtain ⟨ht, hi⟩ :=
          clearLoop_success o cn (updatePendingImageWorkResults o cn tbl).table none heq2
        refine ⟨?_, by simp, ?_⟩
        · simp only [ht]
          exact mapLookup_none_of_countKey_zero _ _
            (countKey_filter_neg _ job r1 _ hnd1 hr1 (by simp [hc1]))
        · simp only [snapshotOf, hi]
          exact countKey_filter_pos _ job r1 _ hnd1 hr1 (by simp [hc1])

theorem run_emitted_of_err (o : ClusterOracle) (cn : String)
    (tbl : List (String × ImageWorkResult)) (n : Nat)
    (h : (updateImageCacheStatus o cn tbl n).errCh ≠ [none]) :
    (updateImageCacheStatus o cn tbl n).emitted = [] := by
  revert h
  unfold updateImageCacheStatus
  split
  · intro _; rfl
  · split
    · intro _; rfl
    · split
      · intro _; rfl
      · intro h; exact absurd rfl h

theorem resolvePending_reason_many (pod : Pod) (iwres : ImageWorkResult)
    (hcs : pod.containerStatuses.length ≠ 1) :
    (resolvePending pod iwres).Reason = "Pending" := by
  unfold resolvePending
  cases hcss : pod.containerStatuses with
  | nil => rfl
  | cons c cs =>
    cases cs with
    | nil =>
      rw [hcss] at hcs
      simp at hcs
    | cons d ds => rfl

theorem resolvedBase_reason_pending_many (pod : Pod) (iwres : ImageWorkResult)
    (hph : pod.phase = PodPhase.pending) (hcs : pod.containerStatuses.length ≠ 1) :
    (resolvedBase pod iwres).Reason = "Pending" := by
  unfold resolvedBase
  rw [if_pos hph]
  exact resolvePending_reason_many pod _ hcs

theorem resolvedBase_reason_notpending (pod : Pod) (iwres : ImageWorkResult)
    (hph : pod.phase ≠ PodPhase.pending) :
    (resolvedBase pod iwres).Reason = iwres.Reason := by
  unfold resolvedBase
  rw [if_neg hph]

theorem resolveEntry_ok_reason_status (o : ClusterOracle) (job : String)
    (iwres iwres1 : ImageWorkResult) (pod : Pod)
    (hp : o.listPods job = Except.ok [pod])
    (hres : (resolveEntry o job iwres).1 = Except.ok iwres1) :
    iwres1.Status = ImageWorkResultStatusFailed ∧
    iwres1.Reason = (resolvedBase pod iwres).Reason := by
  rw [resolveEntry_eq_single o job iwres pod hp] at hres
  by_cases hw : iwres.ImageWorkRequest.WorkType ≠ WorkType.purge
  · rw [if_pos hw] at hres
    rcases he : o.listFailureEvents pod.name with e2 | msgs <;> rw [he] at hres
    · simp at hres
    · injection hres with hres
      subst hres
      exact ⟨resolvedBase_status pod iwres, rfl⟩
  · rw [if_neg hw] at hres
    injection hres with hres
    subst hres
    exact ⟨resolvedBase_status pod iwres, rfl⟩

theorem resolvePending_message_many (pod : Pod) (iwres : ImageWorkResult)
    (hcs : pod.containerStatuses.length ≠ 1) :
    (resolvePending pod iwres).Message = "Check if node is ready" := by
  unfold resolvePending
  cases hcss : pod.containerStatuses with
  | nil => rfl
  | cons c cs =>
    cases cs with
    | nil =>
      rw [hcss] at hcs
      simp at hcs
    | cons d ds => rfl

theorem resolvedBase_message_pending_many (pod : Pod) (iwres : ImageWorkResult)
    (hph : pod.phase = PodPhase.pending) (hcs : pod.containerStatuses.length ≠ 1) :
    (resolvedBase pod iwres).Message = "Check if node is ready" := by
  unfold resolvedBase
  rw [if_pos hph]
  exact resolvePending_message_many pod _ hcs

theorem resolvedBase_message_notpending (pod : Pod) (iwres : ImageWorkResult)
    (hph : pod.phase ≠ PodPhase.pending) :
    (resolvedBase pod iwres).Message = iwres.Message := by
  unfold resolvedBase
  rw [if_neg hph]

theorem resolvePending_single_terminated (pod : Pod) (iwres : ImageWorkResult)
    (cs : ContainerStatus) (t : ContainerStateDetail)
    (hcss : pod.containerStatuses = [cs]) (hterm : cs.state.terminated = some t) :
    (resolvePending pod iwres).Reason = t.reason ∧
    (resolvePending pod iwres).Message = t.message := by
  cases hwait : cs.state.waiting <;>
    simp [resolvePending, hcss, hwait, hterm]

theorem resolvePending_single_waiting (pod : Pod) (iwres : ImageWorkResult)
    (cs : ContainerStatus) (w : ContainerStateDetail)
    (hcss : pod.containerStatuses = [cs]) (hwait : cs.state.waiting = some w)
    (hterm : cs.state.terminated = none) :
    (resolvePending pod iwres).Reason = w.reason ∧
    (resolvePending pod iwres).Message = w.message := by
  simp [resolvePending, hcss, hwait, hterm]

theorem resolvedBase_single_terminated (pod : Pod) (iwres : ImageWorkResult)
    (cs : ContainerStatus) (t : ContainerStateDetail)
    (hph : pod.phase = PodPhase.pending) (hcss : pod.containerStatuses = [cs])
    (hterm : cs.state.terminated = some t) :
    (resolvedBase pod iwres).Reason = t.reason ∧
    (resolvedBase pod iwres).Message = t.message := by
  unfold resolvedBase
  rw [if_pos hph]
  exact resolvePending_single_terminated pod _ cs t hcss hterm

theorem resolvedBase_single_waiting (pod : Pod) (iwres : ImageWorkResult)
    (cs : ContainerStatus) (w : ContainerStateDetail)
    (hph : pod.phase = PodPhase.pending) (hcss : pod.containerStatuses = [cs])
    (hwait : cs.state.waiting = some w) (hterm : cs.state.terminated = none) :
    (resolvedBase pod iwres).Reason = w.reason ∧
    (resolvedBase pod iwres).Message = w.message := by
  unfold resolvedBase
  rw [if_pos hph]
  exact resolvePending_single_waiting pod _ cs w hcss hwait hterm

theorem resolveEntry_ok_fields (o : ClusterOracle) (job : String)
    (iwres iwres1 : ImageWorkResult) (pod : Pod)
    (hp : o.listPods job = Except.ok [pod])
    (hres : (resolveEntry o job iwres).1 = Except.ok iwres1) :
    iwres1.Status = ImageWorkResultStatusFailed ∧
    iwres1.Reason = (resolvedBase pod iwres).Reason ∧
    (iwres.ImageWorkRequest.WorkType = WorkType.purge →
      iwres1.Message = (resolvedBase pod iwres).Message) ∧
    (iwres.ImageWorkRequest.WorkType ≠ WorkType.purge →
      ∀ msgs, o.listFailureEvents pod.name = Except.ok msgs →
        iwres1.Message =
          msgs.foldl (fun acc v => acc ++ ":" ++ v) (resolvedBase pod iwres).Message) := by
  rw [resolveEntry_eq_single o job iwres pod hp] at hres
  by_cases hw : iwres.ImageWorkRequest.WorkType ≠ WorkType.purge
  · rw [if_pos hw] at hres
    rcases he : o.listFailureEvents pod.name with e2 | msgs <;> rw [he] at hres
    · simp at hres
    · injection hres with hres
      subst hres
      refine ⟨resolvedBase_status pod iwres, rfl, ?_, ?_⟩
      · intro hpu
        exact absurd hpu hw
      · intro _ msgs2 he2
        have hmm : msgs = msgs2 := Except.ok.inj he2
        subst hmm
        rfl
  · rw [if_neg hw] at hres
    injection hres with hres
    subst hres
    refine ⟨resolvedBase_status pod iwres, rfl, fun _ => rfl, ?_⟩
    intro hnp
    exact absurd hnp hw

/-- Claim C1 counterexample: with two observer-resolved entries for cache c
and a deletion oracle that succeeds on j1 but fails on j2, the run aborts
with the deletion error, yet job j1 — inserted for this cache-reference —
is neither (removed and reflected in an emitted snapshot) nor still
present untouched: it was removed and no snapshot was emitted at all. -/
theorem C1_roundtrip_cex :
    mapLookup tblSucc2 "j1" = some iwrSucceeded ∧
    (updateImageCacheStatus oC1 "c" tblSucc2 0).errCh = [some "connection refused"] ∧
    ¬ ((mapLookup (updateImageCacheStatus oC1 "c" tblSucc2 0).table "j1" = none ∧
        (updateImageCacheStatus oC1 "c" tblSucc2 0).emitted ≠ []) ∨
      mapLookup (updateImageCacheStatus oC1 "c" tblSucc2 0).table "j1" = some iwrSucceeded) := by
  decide

/-- Claim C1 (amended): for a table with distinct job identifiers, every
job of the flushed cache-reference is, when the run completes successfully
(nil on the completion channel), removed from the Work Status Table and
reflected exactly once in the single emitted snapshot; when the run aborts
with an error, no snapshot is emitted at all (entries already processed by
the deletion loop may have been removed without being reported, while
entries not yet reached remain in the table). -/
theorem C1_roundtrip_amended (o : ClusterOracle) (cn : String)
    (tbl : List (String × ImageWorkResult)) (n : Nat) (job : String)
    (iwres : ImageWorkResult)
    (hnd : (tbl.map Prod.fst).Nodup)
    (hl : mapLookup tbl job = some iwres)
    (hc : iwres.ImageWorkRequest.Imagecache.name = cn) :
    ((updateImageCacheStatus o cn tbl n).errCh = [none] →
      mapLookup (updateImageCacheStatus o cn tbl n).table job = none ∧
      (updateImageCacheStatus o cn tbl n).emitted.length = 1 ∧
      countKey (snapshotOf (updateImageCacheStatus o cn tbl n)) job = 1) ∧
    ((updateImageCacheStatus o cn tbl n).errCh ≠ [none] →
      (updateImageCacheStatus o cn tbl n).emitted = []) := by
  constructor
  · intro hs
    exact run_success o cn tbl n job iwres hnd hl hc hs
  · intro hne
    exact run_emitted_of_err o cn tbl n hne

/-- Witness for C1 (amended): one jobcreated entry for cache c, resolved by
the deadline pass and cleared by a successful run. -/
theorem C1_roundtrip_amended_witness :
    mapLookup (updateImageCacheStatus oRun "c" tblJC1 0).table "j1" = none ∧
    (updateImageCacheStatus oRun "c" tblJC1 0).emitted.length = 1 ∧
    countKey (snapshotOf (updateImageCacheStatus oRun "c" tblJC1 0)) "j1" = 1 :=
  (C1_roundtrip_amended oRun "c" tblJC1 0 "j1" iwrJobCreated (by decide) (by decide)
    (by decide)).1 (by decide)

/-- Claim C2: the forced-resolution pass leaves every Work Status Table
entry whose status is not jobcreated completely unchanged (same key, same
value, same position); in particular an observer-resolved succeeded entry
is never overwritten and no entry is resolved twice. -/
theorem C2_forced_resolution_frame (o : ClusterOracle) (cn : String)
    (tbl : List (String × ImageWorkResult)) (i : Nat) (e : String × ImageWorkResult)
    (he : tbl.get? i = some e)
    (hs : e.2.Status ≠ ImageWorkResultStatusJobCreated) :
    ((updatePendingImageWorkResults o cn tbl).table).get? i = some e :=
  pending_loop_get o cn tbl i e he (fun hand => hs hand.2)

/-- Witness for C2: a succeeded entry survives the forced-resolution pass
unchanged. -/
theorem C2_forced_resolution_frame_witness :
    ((updatePendingImageWorkResults oracle0 "c" tblSucc2).table).get? 0 =
      some ("j1", iwrSucceeded) :=
  C2_forced_resolution_frame oracle0 "c" tblSucc2 0 ("j1", iwrSucceeded)
    (by decide) (by decide)

/-- Claim C3 evaluation: a purge work item whose job-creation API call
fails is only marked Done — no AddRateLimited, no Forget — so it is never
redelivered; the error is merely handed to the error handler, and no entry
is recorded in the Work Status Table. -/
theorem C3_dispatch_failure_dropped :
    processWorkItem dOracleFail reqPurgeC tblJC1 =
      { table := tblJC1, queueOps := [QueueOp.done], spawned := none,
        handledError := some "error deleting image nginx:1.25: server unavailable" } ∧
    QueueOp.addRateLimited ∉ (processWorkItem dOracleFail reqPurgeC tblJC1).queueOps ∧
    QueueOp.forget ∉ (processWorkItem dOracleFail reqPurgeC tblJC1).queueOps := by
  decide

/-- Claim C4: every deadline-reconciler run sends exactly one message on
its dedicated completion channel, the message is nil exactly when the
single aggregated status event was emitted (so every terminal error
surfaces through the channel), and the dispatcher handles a flush item by
forgetting it and spawning the run asynchronously, returning at once with
no error and no queue retry. -/
theorem C4_completion_channel (o : ClusterOracle) (cn : String)
    (tbl : List (String × ImageWorkResult)) (n : Nat) :
    ((updateImageCacheStatus o cn tbl n).errCh.length = 1 ∧
      ((updateImageCacheStatus o cn tbl n).errCh = [none] ↔
        (updateImageCacheStatus o cn tbl n).emitted.length = 1)) ∧
    (∀ (od : DispatchOracle) (iwr : ImageWorkRequest)
        (tbl2 : List (String × ImageWorkResult)),
      iwr.Image = "" → iwr.Node = none →
      processWorkItem od iwr tbl2 =
        { table := tbl2, queueOps := [QueueOp.forget, QueueOp.done],
          spawned := some iwr.Imagecache.name, handledError := none }) := by
  refine ⟨run_shape o cn tbl n, ?_⟩
  intro od iwr tbl2 h1 h2
  unfold processWorkItem
  rw [if_pos ⟨h1, h2⟩]

/-- Witness for C4: a concrete run and a concrete flush item. -/
theorem C4_completion_channel_witness :
    ((updateImageCacheStatus oracle0 "c" [] 0).errCh.length = 1 ∧
      ((updateImageCacheStatus oracle0 "c" [] 0).errCh = [none] ↔
        (updateImageCacheStatus oracle0 "c" [] 0).emitted.length = 1)) ∧
    processWorkItem dOracle0 flushC [] =
      { table := [], queueOps := [QueueOp.forget, QueueOp.done],
        spawned := some flushC.Imagecache.name, handledError := none } :=
  ⟨(C4_completion_channel oracle0 "c" [] 0).1,
   (C4_completion_channel oracle0 "c" [] 0).2 dOracle0 flushC [] rfl rfl⟩

/-- Claim C5 counterexample: the forced-resolution pass of the deadline
reconciler performs the failure-events cluster API call while holding the
exclusive lock, refuting the claim that no lock is ever held across a
network call. -/
theorem C5_lock_scope_cex :
    blockedWhileLocked 0 (updatePendingImageWorkResults oRun "c" tblJC1).trace = true := by
  decide

/-- Claim C5 (amended): the Pod Status Observer never blocks while holding
a lock (its locks are scoped to the single map accesses), and the poll
loop sleeps only outside its read-locked condition; but the deadline
reconciler does hold the exclusive lock across network calls: the
events-listing call of the forced-resolution pass and the job-deletion
calls of the snapshot-and-clear loop. -/
theorem C5_lock_scope_amended :
    (∀ (pod : Pod) (tbl : List (String × ImageWorkResult)),
      blockedWhileLocked 0 (handlePodStatusChange pod tbl).2 = false) ∧
    (∀ n : Nat, blockedWhileLocked 0 (pollTrace n) = false) ∧
    blockedWhileLocked 0 (updatePendingImageWorkResults oRun "c" tblJC1).trace = true ∧
    blockedWhileLocked 0 (updateImageCacheStatus oRun "c" tblSucc2 0).trace = true := by
  refine ⟨?_, ?_, by decide, by decide⟩
  · intro pod tbl
    cases hlu : mapLookup tbl pod.jobName with
    | none => simp [handlePodStatusChange, hlu, blockedWhileLocked]
    | some iwres0 =>
      by_cases hph : pod.phase = PodPhase.failed
      · cases hcs : pod.containerStatuses with
        | nil => simp [handlePodStatusChange, hlu, hph, hcs, blockedWhileLocked]
        | cons c rest => simp [handlePodStatusChange, hlu, hph, hcs, blockedWhileLocked]
      · simp [handlePodStatusChange, hlu, hph, blockedWhileLocked]
  · intro n
    induction n with
    | zero => rfl
    | succ m ih => simp [pollTrace, blockedWhileLocked, ih]

/-- Claim C6 counterexample: two jobcreated entries for cache c where j1
has exactly one pod and j2 has none; the run aborts with the zero-pods
error, but the table is not left unchanged — j1 was already force-resolved
to failed before the abort. -/
theorem C6_ambiguous_pods_cex :
    (updateImageCacheStatus oC6 "c" tblJC2 0).errCh = [some "no pods matched job j2"] ∧
    ¬ (updateImageCacheStatus oC6 "c" tblJC2 0).table = tblJC2 := by
  decide

/-- Claim C6 (amended): if any jobcreated entry of the flushed
cache-reference has zero or more than one matching pod, the whole run
aborts with an error on the completion channel, emits nothing, and removes
no entry from the table (all keys survive in order); entries force-resolved
earlier in the same pass may however keep their forced failed status. -/
theorem C6_ambiguous_pods_amended (o : ClusterOracle) (cn : String)
    (tbl : List (String × ImageWorkResult)) (n : Nat) (job : String)
    (iwres : ImageWorkResult) (pods : List Pod)
    (hmem : (job, iwres) ∈ tbl)
    (hc : iwres.ImageWorkRequest.Imagecache.name = cn)
    (hs : iwres.Status = ImageWorkResultStatusJobCreated)
    (hp : o.listPods job = Except.ok pods)
    (hlen : pods.length ≠ 1) :
    (updateImageCacheStatus o cn tbl n).errCh.length = 1 ∧
    (updateImageCacheStatus o cn tbl n).errCh ≠ [none] ∧
    (updateImageCacheStatus o cn tbl n).emitted = [] ∧
    ((updateImageCacheStatus o cn tbl n).table).map Prod.fst = tbl.map Prod.fst := by
  have hbad := pending_err_of_bad o cn job iwres pods hp hlen hc hs tbl hmem
  cases hperr : (updatePendingLoop o cn tbl).err with
  | none => rw [hperr] at hbad; simp at hbad
  | some e =>
    have hperr2 : (updatePendingImageWorkResults o cn tbl).err = some e := hperr
    unfold updateImageCacheStatus
    simp only [hperr2]
    refine ⟨by simp, by simp, by simp, ?_⟩
    exact pending_loop_keys o cn tbl

/-- Witness for C6 (amended): the zero-pods entry j2 of the concrete
two-entry table. -/
theorem C6_ambiguous_pods_amended_witness :
    (updateImageCacheStatus oC6 "c" tblJC2 0).errCh.length = 1 ∧
    (updateImageCacheStatus oC6 "c" tblJC2 0).errCh ≠ [none] ∧
    (updateImageCacheStatus oC6 "c" tblJC2 0).emitted = [] ∧
    ((updateImageCacheStatus oC6 "c" tblJC2 0).table).map Prod.fst =
      tblJC2.map Prod.fst :=
  C6_ambiguous_pods_amended oC6 "c" tblJC2 0 "j2" iwrJobCreated []
    (by decide) (by decide) (by decide) (by decide) (by decide)

/-- Claim C7 counterexample: a jobcreated entry whose single pod is in
phase Running at the deadline is force-resolved to failed with an empty
(unpopulated) reason and message, refuting the claim that the reason is
always populated. -/
theorem C7_forced_resolution_cex :
    (updateImageCacheStatus oRun "c" tblJC1 0).errCh = [none] ∧
    snapshotOf (updateImageCacheStatus oRun "c" tblJC1 0) =
      [("j1", { iwrJobCreated with Status := ImageWorkResultStatusFailed })] ∧
    ({ iwrJobCreated with Status := ImageWorkResultStatusFailed }).Reason = "" ∧
    ({ iwrJobCreated with Status := ImageWorkResultStatusFailed }).Message = "" := by
  decide

/-- Claim C7 (amended): a jobcreated entry surviving to the forced
resolution is always resolved to failed, and its reason/message base is
set only in the Pending cases: a Pending pod with exactly one container
status gets a waiting state's reason/message, overridden by a terminated
state's when present; a Pending pod with any other number of container
statuses gets the generic Pending / check-node-readiness pair; a
non-Pending pod (for example Running at the deadline) keeps the previous,
typically empty, reason and message base.  Independently of the phase, for
non-purge work each failure-event message of the pod is appended
colon-separated to the message.  On a successful run the emitted snapshot
contains every entry of the cache-reference exactly once,
observer-resolved and force-resolved alike. -/
theorem C7_forced_resolution_amended :
    (∀ (o : ClusterOracle) (job : String) (iwres iwres1 : ImageWorkResult) (pod : Pod),
      o.listPods job = Except.ok [pod] →
      (resolveEntry o job iwres).1 = Except.ok iwres1 →
      iwres1.Status = ImageWorkResultStatusFailed ∧
      iwres1.Reason = (resolvedBase pod iwres).Reason ∧
      (iwres.ImageWorkRequest.WorkType = WorkType.purge →
        iwres1.Message = (resolvedBase pod iwres).Message) ∧
      (iwres.ImageWorkRequest.WorkType ≠ WorkType.purge →
        ∀ msgs, o.listFailureEvents pod.name = Except.ok msgs →
          iwres1.Message =
            msgs.foldl (fun acc v => acc ++ ":" ++ v) (resolvedBase pod iwres).Message)) ∧
    (∀ (pod : Pod) (iwres : ImageWorkResult),
      (pod.phase = PodPhase.pending → pod.containerStatuses.length ≠ 1 →
        (resolvedBase pod iwres).Reason = "Pending" ∧
        (resolvedBase pod iwres).Message = "Check if node is ready") ∧
      (pod.phase ≠ PodPhase.pending →
        (resolvedBase pod iwres).Reason = iwres.Reason ∧
        (resolvedBase pod iwres).Message = iwres.Message) ∧
      (∀ (cs : ContainerStatus) (t : ContainerStateDetail),
        pod.phase = PodPhase.pending → pod.containerStatuses = [cs] →
        cs.state.terminated = some t →
        (resolvedBase pod iwres).Reason = t.reason ∧
        (resolvedBase pod iwres).Message = t.message) ∧
      (∀ (cs : ContainerStatus) (w : ContainerStateDetail),
        pod.phase = PodPhase.pending → pod.containerStatuses = [cs] →
        cs.state.waiting = some w → cs.state.terminated = none →
        (resolvedBase pod iwres).Reason = w.reason ∧
        (resolvedBase pod iwres).Message = w.message)) ∧
    (∀ (o : ClusterOracle) (cn : String) (tbl : List (String × ImageWorkResult))
        (n : Nat) (job : String) (iwres : ImageWorkResult),
      (tbl.map Prod.fst).Nodup → mapLookup tbl job = some iwres →
      iwres.ImageWorkRequest.Imagecache.name = cn →
      (updateImageCacheStatus o cn tbl n).errCh = [none] →
      countKey (snapshotOf (updateImageCacheStatus o cn tbl n)) job = 1) := by
  refine ⟨?_, ?_, ?_⟩
  · intro o job iwres iwres1 pod hp hres
    exact resolveEntry_ok_fields o job iwres iwres1 pod hp hres
  · intro pod iwres
    refine ⟨?_, ?_, ?_, ?_⟩
    · intro hph hcs
      exact ⟨resolvedBase_reason_pending_many pod iwres hph hcs,
        resolvedBase_message_pending_many pod iwres hph hcs⟩
    · intro hph
      exact ⟨resolvedBase_reason_notpending pod iwres hph,
        resolvedBase_message_notpending pod iwres hph⟩
    · intro cs t hph hcss hterm
      exact resolvedBase_single_terminated pod iwres cs t hph hcss hterm
    · intro cs w hph hcss hwait hterm
      exact resolvedBase_single_waiting pod iwres cs w hph hcss hwait hterm
  · intro o cn tbl n job iwres hnd hl hc hsucc
    exact (run_success o cn tbl n job iwres hnd hl hc hsucc).2.2

/-- Witness for C7 (amended): the forced resolution of j1 with a Running
pod (status failed, empty events appended to the unchanged message base),
the generic Pending pair for a Pending pod with no container statuses, and
the snapshot of the successful run containing j1 once. -/
theorem C7_forced_resolution_amended_witness :
    ({ iwrJobCreated with Status := ImageWorkResultStatusFailed } : ImageWorkResult).Status =
      ImageWorkResultStatusFailed ∧
    ({ iwrJobCreated with Status := ImageWorkResultStatusFailed } : ImageWorkResult).Message =
      List.foldl (fun acc v => acc ++ ":" ++ v)
        (resolvedBase podRunningJ1 iwrJobCreated).Message [] ∧
    ((resolvedBase podPendingNoCS iwrJobCreated).Reason = "Pending" ∧
      (resolvedBase podPendingNoCS iwrJobCreated).Message = "Check if node is ready") ∧
    countKey (snapshotOf (updateImageCacheStatus oRun "c" tblJC1 0)) "j1" = 1 :=
  ⟨(C7_forced_resolution_amended.1 oRun "j1" iwrJobCreated
      { iwrJobCreated with Status := ImageWorkResultStatusFailed } podRunningJ1
      (by decide) (by decide)).1,
   (C7_forced_resolution_amended.1 oRun "j1" iwrJobCreated
      { iwrJobCreated with Status := ImageWorkResultStatusFailed } podRunningJ1
      (by decide) (by decide)).2.2.2 (by decide) [] (by decide),
   (C7_forced_resolution_amended.2.1 podPendingNoCS iwrJobCreated).1 rfl (by decide),
   C7_forced_resolution_amended.2.2 oRun "c" tblJC1 0 "j1" iwrJobCreated
      (by decide) (by decide) (by decide) (by decide)⟩

/-- Claim C8 counterexample: a notification moving a pod from Succeeded to
Failed with a changed resource version satisfies the claimed firing
condition (new phase terminal, prior phase different), yet the installed
update handler does not fire, because it requires the prior phase to be
neither Succeeded nor Failed. -/
theorem C8_edge_trigger_cex :
    claimPodObserverFires podOldSucceeded podNewFailed = true ∧
    podUpdateFires podOldSucceeded podNewFailed = false := by
  decide

/-- Claim C8 (amended): the handler fires iff the resource version changed,
the new phase is Succeeded or Failed, and the prior phase was neither
Succeeded nor Failed. -/
theorem C8_edge_trigger_amended (oldPod newPod : Pod) :
    podUpdateFires oldPod newPod = true ↔
      (¬ newPod.resourceVersion = oldPod.resourceVersion ∧
        (newPod.phase = PodPhase.succeeded ∨ newPod.phase = PodPhase.failed) ∧
        (oldPod.phase ≠ PodPhase.succeeded ∧ oldPod.phase ≠ PodPhase.failed)) := by
  unfold podUpdateFires
  by_cases hrv : newPod.resourceVersion = oldPod.resourceVersion
  · rw [if_pos hrv]
    simp [hrv]
  · rw [if_neg hrv]
    simp [hrv]

/-- Claim C9 evaluation: a Failed pod reporting zero container statuses,
whose job has a table entry, drives the observer into the unguarded
ContainerStatuses[0] access — a runtime panic, modelled as the error
result — so the handler is not total. -/
theorem C9_observer_oob_panic :
    (handlePodStatusChange podFailedNoCS tblJC1).1 =
      Except.error "panic: runtime error: index out of range" := by
  decide

/-- Claim C10: when no Work Status Table entry belongs to the flushed
cache-reference, the run sends the missing-cache-reference error on its
completion channel and emits no aggregated status event. -/
theorem C10_missing_cache_ref (o : ClusterOracle) (cn : String)
    (tbl : List (String × ImageWorkResult)) (n : Nat)
    (h : ∀ p ∈ tbl, ¬ p.2.ImageWorkRequest.Imagecache.name = cn) :
    (updateImageCacheStatus o cn tbl n).errCh =
      [some "unable to obtain reference to image cache"] ∧
    (updateImageCacheStatus o cn tbl n).emitted = [] := by
  have hp := pending_nomatch o cn tbl h
  have hpe : (updatePendingImageWorkResults o cn tbl).err = none := by
    show (updatePendingLoop o cn tbl).err = none
    rw [hp]
  have hpt : (updatePendingImageWorkResults o cn tbl).table = tbl := by
    show (updatePendingLoop o cn tbl).table = tbl
    rw [hp]
  have hcl := clearLoop_nomatch o cn tbl none h
  unfold updateImageCacheStatus
  simp only [hpe, hpt, hcl]
  simp

/-- Witness for C10: the empty table. -/
theorem C10_missing_cache_ref_witness :
    (updateImageCacheStatus oracle0 "c" [] 0).errCh =
      [some "unable to obtain reference to image cache"] ∧
    (updateImageCacheStatus oracle0 "c" [] 0).emitted = [] :=
  C10_missing_cache_ref oracle0 "c" [] 0 (by decide)
